import Mathlib

/-!
Verification of the projection loader / view-model builder of the
NBA-Player-Projections repository (the `home` view in
`src/NBAWeb/NBAWeb/views.py`).

The view reads `data_feed/projections.csv`, rounds every numeric column to
one decimal place (`df.round(1)`), deduplicates matchups by the sorted pair
of `team_abbreviation` and `opponent`, and packages everything into a
template context with constant `title` and `year` fields.  Failures (missing
file, parse or processing exceptions) become an `error` field instead.

Embedding choices:
  * a parsed CSV cell is either a string or a number; numbers are modelled
    as rationals (pandas stores them as floats; the rounding behaviour the
    spec talks about is the ideal decimal rounding);
  * a data-frame row is an association list from column name to cell, a
    data frame is the list of its rows in file order;
  * the file system at the computed path is one of: the file is missing,
    reading/parsing it raises (with the exception text), or it parses to a
    data frame;
  * the `request` argument is an opaque record of request fields, threaded
    through like in the source but never consulted;
  * Python dictionary access `row[k]` that can raise `KeyError` is an
    `Except`, and the `try`/`except` of the view catches it;
  * the view is state-passing in the file-system state (`homeFS`), so the
    read-only claim is the statement that the final state equals the
    initial one.
-/

/-- A cell of the parsed CSV: pandas gives a string or a (float) number;
numbers are modelled as rationals. -/
inductive Value where
  | str (s : String)
  | num (q : ℚ)
deriving DecidableEq, Repr

/-- One data-frame row, as a mapping from column name to cell
(the `df.to_dict` records representation). -/
abbrev Row : Type := List (String × Value)

/-- A data frame: the rows in file order. -/
abbrev DataFrame : Type := List Row

/-- The state of the file system at the computed path
`data_feed/projections.csv`: absent, present but raising on read/parse
(`pd.read_csv` or later processing), or parsed into a data frame. -/
inductive FileState where
  | missing
  | readError (msg : String)
  | parsed (df : DataFrame)

/-- The unused request argument of the view: an opaque record of the
fields an incoming HTTP request carries. -/
structure HttpRequest where
  path : String
  method : String
  body : String

/-- The template context built by the view.  `projections`, `games` and
`error` are optional because the source only conditionally inserts those
keys into the dict. -/
structure Context where
  title : String
  year : Int
  projections : Option (List Row)
  games : Option (List String)
  error : Option String
deriving DecidableEq, Repr

/-- Pandas `df.round(1)` on one cell: numeric cells are rounded to one decimal
place, string cells are left alone (pandas rounds only numeric columns). -/
def roundCell (v : Value) : Value :=
  match v with
  | .num q => .num ((round (q * 10) : ℤ) / 10 : ℚ)
  | .str s => .str s

/-- Pandas `df.round(1)` on one row. -/
def roundRow (r : Row) : Row :=
  r.map (fun p => (p.1, roundCell p.2))

/-- The reassignment `df = df.round(1)`. -/
def roundDf (df : DataFrame) : DataFrame :=
  df.map roundRow

/-- Dictionary access `row[k]`: association-list lookup; a missing column raises
`KeyError` (modelled as the error string). -/
def getCell (r : Row) (k : String) : Except String Value :=
  match List.lookup k r with
  | some v => .ok v
  | none => .error ("KeyError: " ++ k)

/-- How Python renders a cell inside an f-string. -/
def valStr (v : Value) : String :=
  match v with
  | .str s => s
  | .num q => toString q

/-- Python string comparison on the underlying code points,
lexicographically. -/
def charsLe : List Char → List Char → Bool
  | [], _ => true
  | _ :: _, [] => false
  | c :: cs, d :: ds =>
      if c.toNat < d.toNat then true
      else if d.toNat < c.toNat then false
      else charsLe cs ds

/-- Python `a <= b` on strings: lexicographic on code points. -/
def strLe (a b : String) : Bool :=
  charsLe a.data b.data

/-- The dedup key `tuple(sorted([a, b]))` for the two team codes. -/
def sort2 (a b : String) : String × String :=
  if strLe a b then (a, b) else (b, a)

/-- The `for _, row in df.iterrows()` loop of the view: walk the rows,
keeping the set of seen matchup keys, and append the display string of
each first occurrence.  Field access can raise, which aborts the loop
(and is caught by the `try` of the view). -/
def matchupLoop : List Row → List (String × String) → Except String (List String)
  | [], _ => .ok []
  | r :: rs, seen => do
      let a ← getCell r "team_abbreviation"
      let b ← getCell r "opponent"
      let key := sort2 (valStr a) (valStr b)
      if key ∈ seen then
        matchupLoop rs seen
      else do
        let rest ← matchupLoop rs (key :: seen)
        pure ((valStr a ++ " vs " ++ valStr b) :: rest)

/-- Initialisation `seen_matchups = set(); unique_matchups = []` followed by
the loop. -/
def uniqueMatchups (df : DataFrame) : Except String (List String) :=
  matchupLoop df []

/-- The check `os.path.exists(csv_path)`: a read of the file system, returning the
state unchanged. -/
def pathExists (fs : FileState) : Bool × FileState :=
  (match fs with
   | .missing => false
   | .readError _ => true
   | .parsed _ => true, fs)

/-- The call `pd.read_csv(csv_path)`: a read of the file system, returning the
state unchanged; raises when the file is missing or malformed. -/
def readCsv (fs : FileState) : Except String DataFrame × FileState :=
  (match fs with
   | .missing => .error "FileNotFoundError"
   | .readError m => .error m
   | .parsed df => .ok df, fs)

/-- The context dict as first assigned: `title` and `year` only. -/
def baseContext : Context :=
  { title := "NBA AI Projections", year := 2026,
    projections := none, games := none, error := none }

/-- The `home` view, state-passing in the file-system state.  The request
is accepted (like in the source) but only the file system determines the
context.  Returns the context together with the file-system state after
the call. -/
def homeFS (_request : HttpRequest) (fs : FileState) : Context × FileState :=
  let e := pathExists fs
  if e.1 then
    let rd := readCsv e.2
    match rd.1 with
    | .error msg =>
        ({ baseContext with error := some ("Error loading data: " ++ msg) }, rd.2)
    | .ok df =>
        let df1 := roundDf df
        match uniqueMatchups df1 with
        | .error msg =>
            ({ baseContext with error := some ("Error loading data: " ++ msg) }, rd.2)
        | .ok games =>
            ({ baseContext with projections := some df1, games := some games }, rd.2)
  else
    ({ baseContext with error := some "File not found. Please run the R script." }, e.2)

/-- The context the view hands to `render`. -/
def home (request : HttpRequest) (fs : FileState) : Context :=
  (homeFS request fs).1

/-- A fixed request for concrete evaluations. -/
def someRequest : HttpRequest :=
  { path := "/", method := "GET", body := "" }

/-- Scenario A of the spec, first CSV row: (LAL, BOS, 24.333). -/
def rowA : Row :=
  [("team_abbreviation", .str "LAL"), ("opponent", .str "BOS"),
   ("pts", .num (24.333 : ℚ))]

/-- Scenario A of the spec, second CSV row: (BOS, LAL, 10.667). -/
def rowB : Row :=
  [("team_abbreviation", .str "BOS"), ("opponent", .str "LAL"),
   ("pts", .num (10.667 : ℚ))]

/-- Scenario A data frame. -/
def dfA : DataFrame := [rowA, rowB]

/-- A data frame whose single row misses the `opponent` column. -/
def dfBad : DataFrame :=
  [[("team_abbreviation", .str "LAL"), ("pts", .num (24.333 : ℚ))]]

/-- Spec side: the two team columns of a row, when both are present and
hold strings (the data model of the spec types them as short codes). -/
def rowTeams (r : Row) : Option (String × String) :=
  match List.lookup "team_abbreviation" r, List.lookup "opponent" r with
  | some (.str a), some (.str b) => some (a, b)
  | _, _ => none

/-- Spec side: the unordered pair of team codes of a row, as an
order-independent mathematical object. -/
def rowPair (r : Row) : Option (Sym2 String) :=
  (rowTeams r).map (fun p => s(p.1, p.2))

/-- Spec side: the matchup key and the display string a row contributes:
the sorted pair as the dedup key, the display in the original field
order of the row. -/
def rowKeyDisp (r : Row) : Option ((String × String) × String) :=
  (rowTeams r).map (fun p => (sort2 p.1 p.2, p.1 ++ " vs " ++ p.2))

/-- The seen-set loop of the view restated on precomputed
(key, display) pairs. -/
def dedupFirst : List ((String × String) × String) → List (String × String) → List String
  | [], _ => []
  | p :: rest, seen =>
      if p.1 ∈ seen then dedupFirst rest seen
      else p.2 :: dedupFirst rest (p.1 :: seen)

/-- Spec formulation of first-occurrence deduplication: keep the head,
drop every later entry with the same key, recurse. -/
def specFirstOcc : List ((String × String) × String) → List String
  | [] => []
  | p :: rest => p.2 :: specFirstOcc (rest.filter (fun q => q.1 ≠ p.1))
termination_by l => l.length
decreasing_by
  simp only [List.length_cons]
  exact Nat.lt_succ_of_le (List.length_filter_le _ _)

/-- The rows of a well-formed projections file: both team columns are
present and hold strings (the data model of the spec types them as short
codes). -/
def HasTeamStrings (r : Row) : Prop :=
  ∃ a b, List.lookup "team_abbreviation" r = some (Value.str a) ∧
    List.lookup "opponent" r = some (Value.str b)

/-- Scenario A after rounding: the expected projections value. -/
def psA : List Row :=
  [[("team_abbreviation", .str "LAL"), ("opponent", .str "BOS"), ("pts", .num (24.3 : ℚ))],
   [("team_abbreviation", .str "BOS"), ("opponent", .str "LAL"), ("pts", .num (10.7 : ℚ))]]

/-- Scenario B of the spec, first CSV row: (GSW, NYK, 5.0). -/
def rowC : Row :=
  [("team_abbreviation", .str "GSW"), ("opponent", .str "NYK"), ("pts", .num (5 : ℚ))]

/-- Scenario B of the spec, second CSV row: (MIA, CHI, 3.0). -/
def rowD : Row :=
  [("team_abbreviation", .str "MIA"), ("opponent", .str "CHI"), ("pts", .num (3 : ℚ))]

/-- Scenario B data frame. -/
def dfScenB : DataFrame := [rowC, rowD]

/-- C1: for the two-row CSV (LAL, BOS, 24.333), (BOS, LAL, 10.667), the
context has exactly the two projection rows with the value rounded to
24.3 and 10.7, and `games` is the single entry "LAL vs BOS", oriented as
in the first occurrence. -/
theorem claim1_scenarioA :
    (home someRequest (.parsed dfA)).projections =
      some [[("team_abbreviation", .str "LAL"), ("opponent", .str "BOS"),
             ("pts", .num (24.3 : ℚ))],
            [("team_abbreviation", .str "BOS"), ("opponent", .str "LAL"),
             ("pts", .num (10.7 : ℚ))]] ∧
    (home someRequest (.parsed dfA)).games = some ["LAL vs BOS"] := by
  constructor
  · have h : roundDf dfA =
        [[("team_abbreviation", .str "LAL"), ("opponent", .str "BOS"),
          ("pts", .num (24.3 : ℚ))],
         [("team_abbreviation", .str "BOS"), ("opponent", .str "LAL"),
          ("pts", .num (10.7 : ℚ))]] := by
      norm_num [roundDf, roundRow, roundCell, round_eq, dfA, rowA, rowB]
    show (homeFS someRequest (.parsed dfA)).1.projections = _
    unfold homeFS
    simp only [pathExists, readCsv, h]
    rfl
  · rfl

/-- C5: when the file is missing, the context carries the fixed
instructional error message and neither a `projections` nor a `games`
entry, whatever the request. -/
theorem claim5_missing_file (request : HttpRequest) :
    (home request .missing).error = some "File not found. Please run the R script." ∧
    (home request .missing).projections = none ∧
    (home request .missing).games = none :=
  ⟨rfl, rfl, rfl⟩

/-- C7: the context is a function of the file-system state alone: two
invocations with different requests but the same file state produce the
same context. -/
theorem claim7_request_independent (r1 r2 : HttpRequest) (fs : FileState) :
    home r1 fs = home r2 fs :=
  rfl

/-- C8: the view only reads: the file-system state after the call equals
the state before it, for every request and file-system state. -/
theorem claim8_read_only (request : HttpRequest) (fs : FileState) :
    (homeFS request fs).2 = fs := by
  cases fs with
  | missing => rfl
  | readError m => rfl
  | parsed df =>
      unfold homeFS
      cases h : uniqueMatchups (roundDf df) <;>
        simp [pathExists, readCsv, h]

/-- C9: in every outcome the context has the constant title
"NBA AI Projections" and the constant year 2026. -/
theorem claim9_constant_title_year (request : HttpRequest) (fs : FileState) :
    (home request fs).title = "NBA AI Projections" ∧
    (home request fs).year = 2026 := by
  cases fs with
  | missing => exact ⟨rfl, rfl⟩
  | readError m => exact ⟨rfl, rfl⟩
  | parsed df =>
      unfold home homeFS
      cases h : uniqueMatchups (roundDf df) <;>
        simp [pathExists, readCsv, h, baseContext]

/-- C10: a CSV that parses to zero data rows succeeds: empty
`projections`, empty `games`, no error entry. -/
theorem claim10_empty_dataframe (request : HttpRequest) :
    (home request (.parsed [])).projections = some [] ∧
    (home request (.parsed [])).games = some [] ∧
    (home request (.parsed [])).error = none :=
  ⟨rfl, rfl, rfl⟩

/-- Bind of a successful `Except` computation. -/
theorem exceptOkBind {e α β : Type} (a : α) (f : α → Except e β) :
    (Except.ok a >>= f : Except e β) = f a := rfl

/-- Pure into `Except` is `ok`. -/
theorem exceptPureEq {e α : Type} (a : α) : (pure a : Except e α) = Except.ok a := rfl

/-- The code-point comparison is total. -/
theorem charsLe_total (l1 l2 : List Char) : charsLe l1 l2 = true ∨ charsLe l2 l1 = true := by
  induction l1 generalizing l2 with
  | nil => left; rfl
  | cons c cs ih =>
      cases l2 with
      | nil => right; rfl
      | cons d ds =>
          rcases Nat.lt_trichotomy c.toNat d.toNat with h | h | h
          · left; simp [charsLe, h]
          · rcases ih ds with h2 | h2
            · left; simp [charsLe, h, Nat.lt_irrefl, h2]
            · right; simp [charsLe, h, Nat.lt_irrefl, h2]
          · right; simp [charsLe, h]

/-- The code-point comparison is antisymmetric. -/
theorem charsLe_antisymm (l1 l2 : List Char)
    (h1 : charsLe l1 l2 = true) (h2 : charsLe l2 l1 = true) : l1 = l2 := by
  induction l1 generalizing l2 with
  | nil =>
      cases l2 with
      | nil => rfl
      | cons d ds => simp [charsLe] at h2
  | cons c cs ih =>
      cases l2 with
      | nil => simp [charsLe] at h1
      | cons d ds =>
          rcases Nat.lt_trichotomy c.toNat d.toNat with h | h | h
          · simp [charsLe, h, Nat.lt_asymm h] at h2
          · have hc : c = d := Char.ext (UInt32.ext h)
            subst hc
            have heq := ih ds (by simpa [charsLe, Nat.lt_irrefl] using h1)
              (by simpa [charsLe, Nat.lt_irrefl] using h2)
            rw [heq]
          · simp [charsLe, h, Nat.lt_asymm h] at h1

/-- Python string order is total. -/
theorem strLe_total (a b : String) : strLe a b = true ∨ strLe b a = true :=
  charsLe_total a.data b.data

/-- Python string order is antisymmetric. -/
theorem strLe_antisymm (a b : String)
    (h1 : strLe a b = true) (h2 : strLe b a = true) : a = b := by
  cases a with
  | mk la =>
      cases b with
      | mk lb =>
          have := charsLe_antisymm la lb h1 h2
          rw [this]

/-- Sorting a two-element list does not depend on the input order. -/
theorem sort2_comm (a b : String) : sort2 a b = sort2 b a := by
  unfold sort2
  by_cases h1 : strLe a b = true
  · by_cases h2 : strLe b a = true
    · have hab := strLe_antisymm a b h1 h2
      subst hab
      rfl
    · simp [h1, h2]
  · have h2 : strLe b a = true := (strLe_total a b).resolve_left h1
    simp [h1, h2]

/-- The sorted pair represents the same unordered pair as the input. -/
theorem sym2_sort2 (a b : String) : s((sort2 a b).1, (sort2 a b).2) = s(a, b) := by
  unfold sort2
  by_cases h : strLe a b = true
  · simp [h]
  · simp [h, Sym2.eq_swap]

/-- Equal unordered pairs have equal sorted representatives: the sorted
pair is a canonical form. -/
theorem sort2_eq_of_sym2 {a b c d : String} (h : s(a, b) = s(c, d)) :
    sort2 a b = sort2 c d := by
  rw [Sym2.eq_iff] at h
  rcases h with ⟨rfl, rfl⟩ | ⟨rfl, rfl⟩
  · rfl
  · exact sort2_comm a b

/-- Column lookup in a rounded row is the rounded column lookup. -/
theorem lookup_roundRow (r : Row) (k : String) :
    List.lookup k (roundRow r) = (List.lookup k r).map roundCell := by
  induction r with
  | nil => rfl
  | cons p ps ih =>
      cases p with
      | mk k1 v1 =>
          simp only [roundRow, List.map_cons, List.lookup]
          cases h : k == k1 with
          | true => rfl
          | false => simpa [roundRow] using ih

/-- On rows whose team columns are strings, the matchup loop of the view
succeeds and computes the pure seen-set fold over the per-row
(key, display) pairs. -/
theorem matchupLoop_map_roundRow (rs : List Row) (seen : List (String × String))
    (h : ∀ r ∈ rs, HasTeamStrings r) :
    matchupLoop (rs.map roundRow) seen = .ok (dedupFirst (rs.filterMap rowKeyDisp) seen) := by
  induction rs generalizing seen with
  | nil => rfl
  | cons r rs ih =>
      obtain ⟨a, b, ha, hb⟩ := h r (List.mem_cons_self r rs)
      have hteams : rowTeams r = some (a, b) := by simp [rowTeams, ha, hb]
      have hkd : rowKeyDisp r = some (sort2 a b, a ++ " vs " ++ b) := by
        simp [rowKeyDisp, hteams]
      have hrest : ∀ x ∈ rs, HasTeamStrings x := fun x hx => h x (List.mem_cons_of_mem _ hx)
      have hga : getCell (roundRow r) "team_abbreviation" = .ok (.str a) := by
        simp [getCell, lookup_roundRow, ha, roundCell]
      have hgb : getCell (roundRow r) "opponent" = .ok (.str b) := by
        simp [getCell, lookup_roundRow, hb, roundCell]
      simp only [List.map_cons, matchupLoop, List.filterMap_cons, hkd, hga, hgb]
      simp only [exceptOkBind, valStr, dedupFirst]
      by_cases hmem : sort2 a b ∈ seen
      · simp only [hmem, if_true, ite_true]
        exact ih seen hrest
      · simp only [hmem, if_false, ite_false]
        rw [ih (sort2 a b :: seen) hrest]
        simp only [exceptOkBind, exceptPureEq]

/-- The seen-set fold equals the filtering formulation of
first-occurrence deduplication. -/
theorem dedupFirst_eq_specFirstOcc (l : List ((String × String) × String))
    (seen : List (String × String)) :
    dedupFirst l seen = specFirstOcc (l.filter (fun p => p.1 ∉ seen)) := by
  induction l generalizing seen with
  | nil => simp [dedupFirst, List.filter_nil, specFirstOcc]
  | cons p rest ih =>
      by_cases hmem : p.1 ∈ seen
      · simp only [dedupFirst]
        rw [if_pos hmem, List.filter_cons, if_neg (by simp [hmem])]
        exact ih seen
      · simp only [dedupFirst]
        rw [if_neg hmem, List.filter_cons, if_pos (by simp [hmem])]
        rw [specFirstOcc]
        rw [ih (p.1 :: seen)]
        have hfilt : List.filter (fun q => decide (q.1 ∉ p.1 :: seen)) rest =
            (rest.filter (fun q => decide (q.1 ∉ seen))).filter (fun q => decide (q.1 ≠ p.1)) := by
          rw [List.filter_filter]
          apply List.filter_congr
          intro q hq
          rcases Decidable.em (q.1 = p.1) with h1 | h1 <;>
            rcases Decidable.em (q.1 ∈ seen) with h2 | h2 <;>
              simp [h1, h2]
        rw [hfilt]

/-- Deduplicating a cons: one entry for the head, plus the distinct
entries of the tail with the head removed. -/
theorem length_dedup_cons {α : Type} [DecidableEq α] (a : α) (l : List α) :
    ((a :: l).dedup).length = ((l.filter (fun x => x ≠ a)).dedup).length + 1 := by
  have hA : ((a :: l).dedup).length = (insert a l.toFinset).card := by
    rw [← List.card_toFinset, List.toFinset_cons]
  have hins : insert a l.toFinset = insert a (l.toFinset.erase a) := by
    ext x
    simp only [Finset.mem_insert, Finset.mem_erase]
    constructor
    · rintro (rfl | hx)
      · exact Or.inl rfl
      · by_cases hxa : x = a
        · exact Or.inl hxa
        · exact Or.inr ⟨hxa, hx⟩
    · rintro (rfl | ⟨_, hx⟩)
      · exact Or.inl rfl
      · exact Or.inr hx
  have hB : (insert a l.toFinset).card = (l.toFinset.erase a).card + 1 := by
    rw [hins, Finset.card_insert_of_not_mem (Finset.not_mem_erase _ _)]
  have hC : (l.filter (fun x => x ≠ a)).toFinset = l.toFinset.erase a := by
    ext x
    simp only [List.mem_toFinset, List.mem_filter, Finset.mem_erase, decide_eq_true_eq]
    tauto
  rw [hA, hB, ← hC, List.card_toFinset]

/-- The first-occurrence list has one entry per distinct key. -/
theorem specFirstOcc_length (l : List ((String × String) × String)) :
    (specFirstOcc l).length = ((l.map Prod.fst).dedup).length := by
  induction l using specFirstOcc.induct with
  | case1 => simp [specFirstOcc]
  | case2 p rest ih =>
      rw [specFirstOcc]
      rw [List.length_cons, ih, List.map_cons, length_dedup_cons, List.filter_map]
      rfl

/-- The finite set of a mapped list is the image of its finite set. -/
theorem toFinset_list_map {α β : Type} [DecidableEq α] [DecidableEq β]
    (f : α → β) (l : List α) : (l.map f).toFinset = l.toFinset.image f := by
  ext x
  simp [List.mem_toFinset, List.mem_map, Finset.mem_image]

/-- Mapping by a function injective on the list preserves the number of
distinct elements. -/
theorem length_dedup_map_of_inj {α β : Type} [DecidableEq α] [DecidableEq β]
    (f : α → β) (l : List α) (h : ∀ x ∈ l, ∀ y ∈ l, f x = f y → x = y) :
    (((l.map f).dedup)).length = ((l.dedup)).length := by
  rw [← List.card_toFinset, ← List.card_toFinset, toFinset_list_map]
  exact Finset.card_image_of_injOn
    (fun x hx y hy => h x (List.mem_toFinset.mp hx) y (List.mem_toFinset.mp hy))

/-- The unordered pair of a row is the unordered pair of its dedup key. -/
theorem rowPair_eq_map (r : Row) :
    rowPair r = (rowKeyDisp r).map (fun p => s(p.1.1, p.1.2)) := by
  cases h : rowTeams r with
  | none => simp [rowPair, rowKeyDisp, h]
  | some ab =>
      unfold rowPair rowKeyDisp
      rw [h]
      show some s(ab.1, ab.2) = some s((sort2 ab.1 ab.2).1, (sort2 ab.1 ab.2).2)
      rw [sym2_sort2]

/-- Lifting `rowPair_eq_map` to a whole data frame. -/
theorem filterMap_rowPair_eq (df : DataFrame) :
    df.filterMap rowPair = (df.filterMap rowKeyDisp).map (fun p => s(p.1.1, p.1.2)) := by
  have hfun : rowPair = fun r => (rowKeyDisp r).map (fun p => s(p.1.1, p.1.2)) :=
    funext rowPair_eq_map
  rw [hfun, ← List.map_filterMap]

/-- Every key produced by a row is a sorted pair. -/
theorem mem_keys_canonical {df : DataFrame} {k : String × String}
    (hk : k ∈ (df.filterMap rowKeyDisp).map Prod.fst) : ∃ a b, k = sort2 a b := by
  rcases List.mem_map.mp hk with ⟨pd, hpd, rfl⟩
  rcases List.mem_filterMap.mp hpd with ⟨r, hr, hsome⟩
  cases ht : rowTeams r with
  | none => simp [rowKeyDisp, ht] at hsome
  | some ab =>
      simp only [rowKeyDisp, ht] at hsome
      have hsome2 : (sort2 ab.1 ab.2, ab.1 ++ " vs " ++ ab.2) = pd := by
        simpa using hsome
      exact ⟨ab.1, ab.2, by rw [← hsome2]⟩

/-- When the context carries projections, they are the rounded data
frame. -/
theorem home_projections_eq {request : HttpRequest} {df : DataFrame} {ps : List Row}
    (h : (home request (.parsed df)).projections = some ps) : ps = roundDf df := by
  unfold home homeFS at h
  simp only [pathExists, readCsv] at h
  cases hu : uniqueMatchups (roundDf df) with
  | error m => rw [hu] at h; simp [baseContext] at h
  | ok gs => rw [hu] at h; simp at h; exact h.symm

/-- When the context carries a games list, the matchup loop succeeded
with that list. -/
theorem home_games_eq {request : HttpRequest} {df : DataFrame} {gs : List String}
    (h : (home request (.parsed df)).games = some gs) :
    uniqueMatchups (roundDf df) = .ok gs := by
  unfold home homeFS at h
  simp only [pathExists, readCsv] at h
  cases hu : uniqueMatchups (roundDf df) with
  | error m => rw [hu] at h; simp [baseContext] at h
  | ok gs0 => rw [hu] at h; simp at h; rw [h]

/-- The games list of a successful run is the seen-set fold over the
per-row (key, display) pairs. -/
theorem games_eq_dedupFirst {request : HttpRequest} {df : DataFrame} {gs : List String}
    (hstr : ∀ r ∈ df, HasTeamStrings r)
    (hg : (home request (.parsed df)).games = some gs) :
    gs = dedupFirst (df.filterMap rowKeyDisp) [] := by
  have hu := home_games_eq hg
  have hb := matchupLoop_map_roundRow df [] hstr
  have hObj : uniqueMatchups (roundDf df) = matchupLoop (df.map roundRow) [] := rfl
  rw [hObj, hb] at hu
  exact (Except.ok.inj hu).symm

/-- C2: for every CSV that parses successfully, the context holds one
mapping per data row in original file order (row i of `projections` is
row i of the file, rounded), and every numeric field of every mapping is
a rational with exactly one decimal place. -/
theorem claim2_projections_rounded (request : HttpRequest) (df : DataFrame) (ps : List Row)
    (h : (home request (.parsed df)).projections = some ps) :
    ps.length = df.length ∧
    (∀ i (h1 : i < ps.length) (h2 : i < df.length),
      ps.get ⟨i, h1⟩ = roundRow (df.get ⟨i, h2⟩)) ∧
    ∀ r ∈ ps, ∀ p ∈ r, ∀ q : ℚ, p.2 = Value.num q → ∃ z : ℤ, q = (z : ℚ) / 10 := by
  have hps := home_projections_eq h
  subst hps
  refine ⟨List.length_map _ _, ?_, ?_⟩
  · intro i h1 h2
    simp [roundDf]
  · intro r hr p hp q hq
    simp only [roundDf, List.mem_map] at hr
    obtain ⟨r0, _, rfl⟩ := hr
    simp only [roundRow, List.mem_map] at hp
    obtain ⟨p0, _, rfl⟩ := hp
    cases hv : p0.2 with
    | str s => simp [roundCell, hv] at hq
    | num q0 =>
        simp only [roundCell, hv] at hq
        cases hq
        exact ⟨round (q0 * 10), rfl⟩

/-- Witness for C2 on the Scenario A file: the hypothesis holds and the
conclusion follows by the theorem. -/
theorem claim2_witness :
    (home someRequest (FileState.parsed dfA)).projections = some psA ∧
    (psA.length = dfA.length ∧
     (∀ i (h1 : i < psA.length) (h2 : i < dfA.length),
        psA.get ⟨i, h1⟩ = roundRow (dfA.get ⟨i, h2⟩)) ∧
     ∀ r ∈ psA, ∀ p ∈ r, ∀ q : ℚ, p.2 = Value.num q → ∃ z : ℤ, q = (z : ℚ) / 10) := by
  have hp : (home someRequest (FileState.parsed dfA)).projections = some psA := by
    have h : roundDf dfA = psA := by
      norm_num [roundDf, roundRow, roundCell, round_eq, dfA, rowA, rowB, psA]
    show (homeFS someRequest (FileState.parsed dfA)).1.projections = _
    unfold homeFS
    simp only [pathExists, readCsv, h]
    rfl
  exact ⟨hp, claim2_projections_rounded someRequest dfA psA hp⟩

/-- C3: for every CSV that parses successfully with string team columns,
the games list has exactly one entry per distinct unordered pair of team
codes occurring in the file. -/
theorem claim3_games_distinct_pairs (request : HttpRequest) (df : DataFrame) (gs : List String)
    (hstr : ∀ r ∈ df, HasTeamStrings r)
    (hg : (home request (.parsed df)).games = some gs) :
    gs.length = ((df.filterMap rowPair).dedup).length := by
  rw [games_eq_dedupFirst hstr hg, dedupFirst_eq_specFirstOcc]
  have hfilt : (df.filterMap rowKeyDisp).filter
      (fun p => p.1 ∉ ([] : List (String × String))) = df.filterMap rowKeyDisp := by
    apply List.filter_eq_self.mpr
    intro p hp
    simp
  rw [hfilt, specFirstOcc_length]
  rw [filterMap_rowPair_eq]
  have hcomp : (fun p : (String × String) × String => s(p.1.1, p.1.2)) =
      (fun k : String × String => s(k.1, k.2)) ∘ Prod.fst := rfl
  rw [hcomp, ← List.map_map]
  have hinj : ∀ x ∈ (df.filterMap rowKeyDisp).map Prod.fst,
      ∀ y ∈ (df.filterMap rowKeyDisp).map Prod.fst,
      (fun k : String × String => s(k.1, k.2)) x = (fun k : String × String => s(k.1, k.2)) y →
      x = y := by
    intro x hx y hy hxy
    obtain ⟨a, b, rfl⟩ := mem_keys_canonical hx
    obtain ⟨c, d, rfl⟩ := mem_keys_canonical hy
    simp only [sym2_sort2] at hxy
    exact sort2_eq_of_sym2 hxy
  exact (length_dedup_map_of_inj _ _ hinj).symm

/-- Witness for C3 on the Scenario A file: its two rows are the same
unordered pair, so one games entry. -/
theorem claim3_witness :
    (∀ r ∈ dfA, HasTeamStrings r) ∧
    (home someRequest (FileState.parsed dfA)).games = some ["LAL vs BOS"] ∧
    (["LAL vs BOS"] : List String).length = ((dfA.filterMap rowPair).dedup).length := by
  have hstrA : ∀ r ∈ dfA, HasTeamStrings r := by
    intro r hr
    simp only [dfA, List.mem_cons, List.not_mem_nil, or_false] at hr
    rcases hr with rfl | rfl
    · exact ⟨"LAL", "BOS", rfl, rfl⟩
    · exact ⟨"BOS", "LAL", rfl, rfl⟩
  have hgA : (home someRequest (FileState.parsed dfA)).games = some ["LAL vs BOS"] := rfl
  exact ⟨hstrA, hgA, claim3_games_distinct_pairs someRequest dfA ["LAL vs BOS"] hstrA hgA⟩

/-- C4: for every CSV that parses successfully with string team columns,
the games list keeps the first occurrence of every unordered pair, in
file order, displayed as team-then-opponent of that first row (not the
sorted key). -/
theorem claim4_games_first_occurrence (request : HttpRequest) (df : DataFrame) (gs : List String)
    (hstr : ∀ r ∈ df, HasTeamStrings r)
    (hg : (home request (.parsed df)).games = some gs) :
    gs = specFirstOcc (df.filterMap rowKeyDisp) := by
  rw [games_eq_dedupFirst hstr hg, dedupFirst_eq_specFirstOcc]
  congr 1
  apply List.filter_eq_self.mpr
  intro p hp
  simp

/-- Witness for C4 on the Scenario B file: two distinct matchups, file
order preserved, each displayed in row orientation. -/
theorem claim4_witness :
    (∀ r ∈ dfScenB, HasTeamStrings r) ∧
    (home someRequest (FileState.parsed dfScenB)).games = some ["GSW vs NYK", "MIA vs CHI"] ∧
    (["GSW vs NYK", "MIA vs CHI"] : List String) = specFirstOcc (dfScenB.filterMap rowKeyDisp) := by
  have hstrB : ∀ r ∈ dfScenB, HasTeamStrings r := by
    intro r hr
    simp only [dfScenB, List.mem_cons, List.not_mem_nil, or_false] at hr
    rcases hr with rfl | rfl
    · exact ⟨"GSW", "NYK", rfl, rfl⟩
    · exact ⟨"MIA", "CHI", rfl, rfl⟩
  have hgB : (home someRequest (FileState.parsed dfScenB)).games =
      some ["GSW vs NYK", "MIA vs CHI"] := rfl
  exact ⟨hstrB, hgB, claim4_games_first_occurrence someRequest dfScenB _ hstrB hgB⟩

/-- C6: when the file exists but reading or processing it raises (for
example the `opponent` column is missing), the view catches the error
and the context carries a message embedding the error description, with
no `projections` and no `games` entry; the view itself is total, so no
exception reaches the caller. -/
theorem claim6_processing_error (request : HttpRequest) (fs : FileState) (m : String)
    (h : fs = .readError m ∨
      ∃ df, fs = .parsed df ∧ uniqueMatchups (roundDf df) = .error m) :
    (home request fs).error = some ("Error loading data: " ++ m) ∧
    (home request fs).projections = none ∧
    (home request fs).games = none := by
  rcases h with rfl | ⟨df, rfl, hu⟩
  · exact ⟨rfl, rfl, rfl⟩
  · unfold home homeFS
    simp only [pathExists, readCsv, hu]
    exact ⟨rfl, rfl, rfl⟩

/-- Witness for C6: a one-row file missing the `opponent` column raises
a key error inside the loop, and the context reports it. -/
theorem claim6_witness :
    (FileState.parsed dfBad = FileState.readError "KeyError: opponent" ∨
     ∃ df, FileState.parsed dfBad = FileState.parsed df ∧
       uniqueMatchups (roundDf df) = Except.error "KeyError: opponent") ∧
    ((home someRequest (FileState.parsed dfBad)).error =
        some ("Error loading data: " ++ "KeyError: opponent") ∧
     (home someRequest (FileState.parsed dfBad)).projections = none ∧
     (home someRequest (FileState.parsed dfBad)).games = none) := by
  have h : FileState.parsed dfBad = FileState.readError "KeyError: opponent" ∨
      ∃ df, FileState.parsed dfBad = FileState.parsed df ∧
        uniqueMatchups (roundDf df) = Except.error "KeyError: opponent" :=
    Or.inr ⟨dfBad, rfl, rfl⟩
  exact ⟨h, claim6_processing_error someRequest (FileState.parsed dfBad) "KeyError: opponent" h⟩
